import Mathlib

/-!
Shallow embedding of the `presence` Holochain happ's room zome (and the
unzoom zome's agent anchor), covering the revision resolver, the mutation
protocol's link writes, and the per-operation validation callbacks.
Machine hashes are modelled as an inductive over the hash namespaces
(agent / action / entry / external); content addressing is modelled by
letting an entry hash literally carry the anchor string or entry content it
hashes (hash collisions are out of scope for the source system).
Fallible zome calls (`ExternResult`) are modelled as `Except String`.
-/

namespace Presence

/-- An agent public key (a fixed-length byte string in the source). -/
abbrev AgentPubKey := Nat

/-- An action hash (content-derived address of an action). -/
abbrev ActionHash := Nat

/-- The `RoomInfo` entry payload (integrity zome `room_info.rs`). -/
structure RoomInfo where
  name : String
  icon_src : Option String
  meta_data : Option String
deriving DecidableEq

/-- The `DescendentRoom` entry payload (integrity zome `descendent_room.rs`). -/
structure DescendentRoom where
  network_seed_appendix : String
  name : String
  icon_src : Option String
  meta_data : Option String
deriving DecidableEq

/-- Modelled from the spec: the `Attachment` entry payload lives in an
integrity-zome file that is not part of the provided sources; the spec only
states it is a fixed, independently-validated shape, so it is modelled as an
opaque payload. No claim inspects its fields. -/
structure Attachment where
  content : String
deriving DecidableEq

/-- The closed union of app entry contents (`EntryTypes` in `lib.rs`). -/
inductive EntryContent
  | roomInfo (r : RoomInfo)
  | attachment (a : Attachment)
  | descendentRoom (d : DescendentRoom)
deriving DecidableEq

/-- An entry hash: either the deterministic hash of an anchor `Path` built
from a well-known string, the content hash of an app entry, or some other
opaque entry hash. -/
inductive EntryHash
  | path (s : String)
  | content (e : EntryContent)
  | raw (n : Nat)
deriving DecidableEq

/-- `AnyLinkableHash`: the union of addressable hash kinds that can appear
as a link base or target. -/
inductive AnyLinkableHash
  | agent (k : AgentPubKey)
  | action (h : ActionHash)
  | entry (h : EntryHash)
  | ext (n : Nat)
deriving DecidableEq

/-- `AgentPubKey::try_from(AnyLinkableHash)`: succeeds exactly on
agent-typed hashes. -/
def toAgentPubKey : AnyLinkableHash → Option AgentPubKey
  | .agent k => some k
  | _ => none

/-- `AnyLinkableHash::into_action_hash`: succeeds exactly on action hashes. -/
def intoActionHash : AnyLinkableHash → Option ActionHash
  | .action h => some h
  | _ => none

/-- `EntryHash::try_from(AnyLinkableHash)`: succeeds exactly on entry hashes. -/
def toEntryHash : AnyLinkableHash → Option EntryHash
  | .entry h => some h
  | _ => none

/-- `Path::from(s).path_entry_hash()`: the deterministic anchor hash of a
well-known string. -/
def path_entry_hash (s : String) : EntryHash := .path s

/-- The closed union of link kinds (`LinkTypes` in the room zome's `lib.rs`,
plus the unzoom zome's `AnchorToAgent`). -/
inductive LinkType
  | roomInfoUpdates
  | allAgents
  | allDescendentRooms
  | attachmentUpdates
  | allAttachments
  | anchorToAgent
deriving DecidableEq

/-- A link as returned by `get_links`. -/
structure Link where
  author : AgentPubKey
  target : AnyLinkableHash
  timestamp : Int
  create_link_hash : ActionHash
  tag : List Nat
deriving DecidableEq

/-- The signed, hashed action header of a record (only the fields the
embedded code reads: hash, author, timestamp). -/
structure SignedActionHashed where
  hash : ActionHash
  author : AgentPubKey
  timestamp : Int
deriving DecidableEq

/-- The entry slot of a record. -/
inductive RecordEntry
  | present (e : EntryContent)
  | hidden
  | na
  | notStored
deriving DecidableEq

/-- A record: an (action, entry) pair as returned by `get`. -/
structure Record where
  signed_action : SignedActionHashed
  entry : RecordEntry
deriving DecidableEq

/-- `RecordDetails`: the record at an action hash plus all delete actions
recorded against it. -/
structure RecordDetails where
  record : Record
  deletes : List SignedActionHashed
deriving DecidableEq

/-- `Details` as returned by `get_details`: either record details (for an
action hash) or entry details (the other shape of the enum; its payload is
never read by the embedded code, which always rejects it immediately). -/
inductive Details
  | entryDetails
  | record (d : RecordDetails)
deriving DecidableEq

/-- Read strategy: local-only or network-scope (`GetStrategy` /
`GetOptions` in the source; `GetOptions::default()` is network scope). -/
inductive GetStrategy
  | loc
  | network
deriving DecidableEq

/-- The black-box distributed content-addressed store collaborator, as seen
through `get_links` / `get` / `get_records. -/
structure Store where
  links : GetStrategy → AnyLinkableHash → LinkType → List Link
  record : GetStrategy → ActionHash → Option Record
  details : GetStrategy → ActionHash → Option Details

/-- Modelled from the spec: the coordinator zome's `ZomeFnInput` wrapper
(`helper.rs` is not part of the provided sources); per the spec it carries
the payload plus the caller-chosen read strategy (local vs network). -/
structure ZomeFnInput (α : Type) where
  input : α
  strategy : GetStrategy

/-- One fold step of `iterator.max_by(...)`: keep the accumulated maximum
unless the next element's timestamp is at least as large (Rust `max_by`
returns the last of several equally-maximal elements). -/
def maxByTimestampStep (acc : Option Link) (l : Link) : Option Link :=
  match acc with
  | none => some l
  | some a => if l.timestamp < a.timestamp then some a else some l

/-- `iterator.max_by(|a, b| a.timestamp.cmp(&b.timestamp))`. -/
def maxByTimestamp (links : List Link) : Option Link :=
  links.foldl maxByTimestampStep none

/-- Resolution of one Updates-link's target exactly as the `get_latest`
functions perform it: downcast the target to an action hash (erroring like
the source when that fails) and fetch the record there. -/
def resolveLinkTarget (store : Store) (gs : GetStrategy) (l : Link) :
    Except String (Option Record) :=
  match intoActionHash l.target with
  | some h => .ok (store.record gs h)
  | none => .error "No action hash associated with link"

/-- `get_latest_room_info` (coordinator `room_info.rs`). -/
def get_latest_room_info (store : Store) (original_room_info_hash : ActionHash) :
    Except String (Option Record) :=
  let links := store.links .network (.action original_room_info_hash) .roomInfoUpdates
  match maxByTimestamp links with
  | some link =>
    match intoActionHash link.target with
    | some h => .ok (store.record .network h)
    | none => .error "No action hash associated with link"
  | none => .ok (store.record .network original_room_info_hash)

/-- `get_latest_attachment` (coordinator `attachment.rs`). -/
def get_latest_attachment (store : Store) (original_attachment_hash : ZomeFnInput ActionHash) :
    Except String (Option Record) :=
  let links := store.links original_attachment_hash.strategy
    (.action original_attachment_hash.input) .attachmentUpdates
  match maxByTimestamp links with
  | some link =>
    match intoActionHash link.target with
    | some h => .ok (store.record original_attachment_hash.strategy h)
    | none => .error "No action hash associated with link"
  | none => .ok (store.record original_attachment_hash.strategy original_attachment_hash.input)

/-- `get_original_room_info` (coordinator `room_info.rs`). -/
def get_original_room_info (store : Store) (original_room_info_hash : ActionHash) :
    Except String (Option Record) :=
  match store.details .network original_room_info_hash with
  | none => .ok none
  | some (.record d) => .ok (some d.record)
  | some _ => .error "Malformed get details response"

/-- `get_original_attachment` (coordinator `attachment.rs`). -/
def get_original_attachment (store : Store) (original_attachment_hash : ZomeFnInput ActionHash) :
    Except String (Option Record) :=
  match store.details original_attachment_hash.strategy original_attachment_hash.input with
  | none => .ok none
  | some (.record d) => .ok (some d.record)
  | some _ => .error "Malformed get details response"

/-- The `links.map(link.target.into_action_hash().ok_or(...)).collect::<ExternResult<Vec<_>>>()`
step of the `get_all_revisions` functions: short-circuits with the source's
error on the first link whose target is not an action hash. -/
def collectTargets : List Link → Except String (List ActionHash)
  | [] => .ok []
  | l :: ls =>
    match intoActionHash l.target with
    | none => .error "No action hash associated with link"
    | some h =>
      match collectTargets ls with
      | .error e => .error e
      | .ok hs => .ok (h :: hs)

/-- `get_all_revisions_for_room_info` (coordinator `room_info.rs`). -/
def get_all_revisions_for_room_info (store : Store) (original_room_info_hash : ActionHash) :
    Except String (List Record) :=
  match get_original_room_info store original_room_info_hash with
  | .error e => .error e
  | .ok none => .ok []
  | .ok (some original_record) =>
    let links := store.links .network (.action original_room_info_hash) .roomInfoUpdates
    match collectTargets links with
    | .error e => .error e
    | .ok hashes =>
      .ok (original_record :: (hashes.map (store.record .network)).filterMap id)

/-- `get_all_revisions_for_attachment` (coordinator `attachment.rs`). -/
def get_all_revisions_for_attachment (store : Store)
    (original_attachment_hash : ZomeFnInput ActionHash) : Except String (List Record) :=
  match get_original_attachment store original_attachment_hash with
  | .error e => .error e
  | .ok none => .ok []
  | .ok (some original_record) =>
    let links := store.links original_attachment_hash.strategy
      (.action original_attachment_hash.input) .attachmentUpdates
    match collectTargets links with
    | .error e => .error e
    | .ok hashes =>
      .ok (original_record ::
        (hashes.map (store.record original_attachment_hash.strategy)).filterMap id)

/-- `get_all_deletes_for_attachment` (coordinator `attachment.rs`). -/
def get_all_deletes_for_attachment (store : Store)
    (original_attachment_hash : ZomeFnInput ActionHash) :
    Except String (Option (List SignedActionHashed)) :=
  match store.details original_attachment_hash.strategy original_attachment_hash.input with
  | none => .ok none
  | some .entryDetails => .error "Malformed details"
  | some (.record record_details) => .ok (some record_details.deletes)

/-- The timestamp order used by `deletes.sort_by(...)`. -/
def tsLE (a b : SignedActionHashed) : Prop := a.timestamp ≤ b.timestamp

instance : DecidableRel tsLE := fun a b => inferInstanceAs (Decidable (a.timestamp ≤ b.timestamp))

instance : IsTotal SignedActionHashed tsLE := ⟨fun a b => Int.le_total a.timestamp b.timestamp⟩

instance : IsTrans SignedActionHashed tsLE := ⟨fun _ _ _ hab hbc => le_trans hab hbc⟩

/-- `deletes.sort_by(|a, b| a.action().timestamp().cmp(&b.action().timestamp()))`:
a stable sort ascending by action timestamp. -/
def sortByTimestamp (deletes : List SignedActionHashed) : List SignedActionHashed :=
  List.insertionSort tsLE deletes

/-- `get_oldest_delete_for_attachment` (coordinator `attachment.rs`). -/
def get_oldest_delete_for_attachment (store : Store)
    (original_attachment_hash : ZomeFnInput ActionHash) :
    Except String (Option SignedActionHashed) :=
  match get_all_deletes_for_attachment store original_attachment_hash with
  | .error e => .error e
  | .ok none => .ok none
  | .ok (some deletes) => .ok (sortByTimestamp deletes).head?

/-- `ALL_AGENTS` anchor string (coordinator `all_agents.rs`). -/
def ALL_AGENTS : String := "ALL_AGENTS"

/-- `ROOM_INFO` anchor string (integrity `room_info.rs`). -/
def ROOM_INFO : String := "ROOM_INFO"

/-- `ALL_DESCENDENT_ROOMS` anchor string (coordinator `all_descendent_rooms.rs`). -/
def ALL_DESCENDENT_ROOMS : String := "ALL_DESCENDENT_ROOMS"

/-- `get_all_agents` (coordinator `all_agents.rs`): fetch the links at the
`ALL_AGENTS` anchor and keep the targets that parse as agent public keys. -/
def get_all_agents (store : Store) : Except String (List AgentPubKey) :=
  let links := store.links .network (.entry (path_entry_hash ALL_AGENTS)) .allAgents
  .ok (links.filterMap (fun link => toAgentPubKey link.target))

namespace Unzoom

/-- The `anchor(...)` helper of the unzoom zome: a deterministic entry hash
derived from the anchor type and text strings alone. -/
def anchor (anchor_type anchor_text : String) : EntryHash :=
  .path (anchor_type ++ "." ++ anchor_text)

/-- `get_all_agents` (unzoom coordinator `anchor_to_agent.rs`): map targets
through `AgentPubKey::try_from(...).ok()` and drop the failures. -/
def get_all_agents (store : Store) : Except String (List AgentPubKey) :=
  let all_agents_anchor := anchor ALL_AGENTS ALL_AGENTS
  let links := store.links .network (.entry all_agents_anchor) .anchorToAgent
  .ok ((links.map (fun link => toAgentPubKey link.target)).filterMap id)

end Unzoom

/-- The result of a validation callback. -/
inductive ValidateCallbackResult
  | valid
  | invalid (reason : String)
deriving DecidableEq

/-- A `CreateLink` action (the fields the embedded validators and the
mutation protocol read). -/
structure CreateLink where
  author : AgentPubKey
  timestamp : Int
  base_address : AnyLinkableHash
  target_address : AnyLinkableHash
  link_type : LinkType
  tag : List Nat
deriving DecidableEq

/-- A `DeleteLink` action. -/
structure DeleteLink where
  author : AgentPubKey
  timestamp : Int
  link_add_address : ActionHash
deriving DecidableEq

/-- A `Delete` action. -/
structure Delete where
  author : AgentPubKey
  timestamp : Int
  deletes_address : ActionHash
deriving DecidableEq

/-- An `EntryCreationAction` (Create or Update), as handed to the delete
validators; the embedded validators never read its fields. -/
inductive EntryCreationAction
  | create (author : AgentPubKey) (timestamp : Int)
  | update (author : AgentPubKey) (timestamp : Int)
deriving DecidableEq

/-- `validate_create_link_all_agents` (integrity `anchors.rs`). -/
def validate_create_link_all_agents (action : CreateLink)
    (_base_address _target_address : AnyLinkableHash) (_tag : List Nat) :
    Except String ValidateCallbackResult :=
  match toAgentPubKey action.target_address with
  | none => .ok (.invalid "AllAgents link target is not an agent public key.")
  | some target_pubkey =>
    if action.author ≠ target_pubkey then
      .ok (.invalid "Links from the ALL_AGENTS anchor can only be created for oneself.")
    else
      .ok .valid

/-- `validate_delete_link_all_agents` (integrity `anchors.rs`). -/
def validate_delete_link_all_agents (_action : DeleteLink) (_original_action : CreateLink)
    (_base _target : AnyLinkableHash) (_tag : List Nat) :
    Except String ValidateCallbackResult :=
  .ok (.invalid "AllAgent links cannot be deleted.")

/-- `String::from_utf8(tag.as_ref().to_vec())` check of
`validate_create_link_all_descendent_rooms`: whether the raw tag bytes
decode as UTF-8 text. -/
def tagDecodesAsString (tag : List Nat) : Bool :=
  String.fromUTF8? ⟨⟨tag.map (fun n => UInt8.ofNat n)⟩⟩ |>.isSome

/-- `validate_create_link_all_descendent_rooms` (integrity `anchors.rs`). -/
def validate_create_link_all_descendent_rooms (action : CreateLink)
    (_base_address _target_address : AnyLinkableHash) (tag : List Nat) :
    Except String ValidateCallbackResult :=
  match toAgentPubKey action.target_address with
  | none => .ok (.invalid "AllAgents link target is not an agent public key.")
  | some target_pubkey =>
    if action.author ≠ target_pubkey then
      .ok (.invalid "Links from the ALL_AGENTS anchor can only be created for oneself.")
    else if tagDecodesAsString tag then
      .ok .valid
    else
      .ok (.invalid "LinkTag is of a format that cannot be converted to a String.")

/-- `validate_delete_link_all_descendent_rooms` (integrity `anchors.rs`). -/
def validate_delete_link_all_descendent_rooms (_action : DeleteLink)
    (_original_action : CreateLink) (_base _target : AnyLinkableHash) (_tag : List Nat) :
    Except String ValidateCallbackResult :=
  .ok .valid

/-- `must_get_valid_record`: deterministic fetch of a record that fails the
callback with an error (not an Invalid verdict) when the record is absent. -/
def must_get_valid_record (store : Store) (h : ActionHash) : Except String Record :=
  match store.record .network h with
  | some record => .ok record
  | none => .error "Record not found"

/-- `record.entry().to_app_option::<RoomInfo>()`: `Ok(Some)` when the entry
is present and deserializes as a `RoomInfo`, `Err` when a present entry is
of a different shape, `Ok(None)` when the record carries no entry. -/
def toAppOptionRoomInfo : RecordEntry → Except String (Option RoomInfo)
  | .present (.roomInfo r) => .ok (some r)
  | .present _ => .error "SerializedBytesError"
  | _ => .ok none

/-- `validate_create_link_room_info_updates` (integrity `room_info.rs`). -/
def validate_create_link_room_info_updates (store : Store) (_action : CreateLink)
    (base_address target_address : AnyLinkableHash) (_tag : List Nat) :
    Except String ValidateCallbackResult :=
  let anchor_hash := path_entry_hash ROOM_INFO
  match toEntryHash base_address with
  | none => .ok (.invalid "Base address of a RoomInfoUpdates link must be an entry hash.")
  | some base_entry_hash =>
    if base_entry_hash ≠ anchor_hash then
      .ok (.invalid "RoomInfoUpdates links must have the RoomInfo anchor as their base.")
    else
      match intoActionHash target_address with
      | none => .error "Link to RoomInfo entry is not an action hash"
      | some room_info_action_hash =>
        match must_get_valid_record store room_info_action_hash with
        | .error e => .error e
        | .ok record =>
          match toAppOptionRoomInfo record.entry with
          | .error e => .error e
          | .ok none => .error "Linked action must point to a RoomInfo entry"
          | .ok (some _) => .ok .valid

/-- `validate_delete_link_room_info_updates` (integrity `room_info.rs`). -/
def validate_delete_link_room_info_updates (_action : DeleteLink)
    (_original_action : CreateLink) (_base _target : AnyLinkableHash) (_tag : List Nat) :
    Except String ValidateCallbackResult :=
  .ok (.invalid "RoomInfoUpdates links cannot be deleted")

/-- Modelled from the spec: `validate_create_link_attachment_updates` lives
in an integrity-zome file that is not part of the provided sources; per the
spec's validation table, link kinds without an explicit restriction fall
through to `Valid`. -/
def validate_create_link_attachment_updates (_action : CreateLink)
    (_base_address _target_address : AnyLinkableHash) (_tag : List Nat) :
    Except String ValidateCallbackResult :=
  .ok .valid

/-- Modelled from the spec: `validate_create_link_all_attachments` is not
part of the provided sources; per the spec's validation table, link kinds
without an explicit restriction fall through to `Valid`. -/
def validate_create_link_all_attachments (_action : CreateLink)
    (_base_address _target_address : AnyLinkableHash) (_tag : List Nat) :
    Except String ValidateCallbackResult :=
  .ok .valid

/-- Modelled from the spec: `validate_delete_link_attachment_updates` is
not part of the provided sources; the spec's table says DeleteLink on
AttachmentUpdates is `Valid`. -/
def validate_delete_link_attachment_updates (_action : DeleteLink)
    (_original_action : CreateLink) (_base _target : AnyLinkableHash) (_tag : List Nat) :
    Except String ValidateCallbackResult :=
  .ok .valid

/-- Modelled from the spec: `validate_delete_link_all_attachments` is not
part of the provided sources; the spec's table says DeleteLink on
AllAttachments is `Valid`. -/
def validate_delete_link_all_attachments (_action : DeleteLink)
    (_original_action : CreateLink) (_base _target : AnyLinkableHash) (_tag : List Nat) :
    Except String ValidateCallbackResult :=
  .ok .valid

/-- `validate_delete_room_info` (integrity `room_info.rs`). -/
def validate_delete_room_info (_action : Delete) (_original_action : EntryCreationAction)
    (_original_room_info : RoomInfo) : Except String ValidateCallbackResult :=
  .ok (.invalid "Room Infos cannot be deleted")

/-- `validate_delete_descendent_room` (integrity `descendent_room.rs`). -/
def validate_delete_descendent_room (_action : Delete) (_original_action : EntryCreationAction)
    (_original_descendent_room : DescendentRoom) : Except String ValidateCallbackResult :=
  .ok (.invalid "Room Infos cannot be deleted")

/-- Modelled from the spec: `validate_delete_attachment` is not part of the
provided sources; the spec's table says Delete on kind Attachment is always
`Valid`. -/
def validate_delete_attachment (_action : Delete) (_original_action : EntryCreationAction)
    (_original_attachment : Attachment) : Except String ValidateCallbackResult :=
  .ok .valid

/-- The `FlatOp::RegisterCreateLink` dispatch arm of `validate` (`lib.rs`):
route a CreateLink action to the rule-set of its declared link kind, passing
the action's base, target and tag. The unzoom zome's `AnchorToAgent` kind
has no rule in this zome and is routed nowhere; it is mapped to the
permissive default. -/
def validate_any_create_link (store : Store) (cl : CreateLink) :
    Except String ValidateCallbackResult :=
  match cl.link_type with
  | .roomInfoUpdates =>
    validate_create_link_room_info_updates store cl cl.base_address cl.target_address cl.tag
  | .allAgents =>
    validate_create_link_all_agents cl cl.base_address cl.target_address cl.tag
  | .allDescendentRooms =>
    validate_create_link_all_descendent_rooms cl cl.base_address cl.target_address cl.tag
  | .attachmentUpdates =>
    validate_create_link_attachment_updates cl cl.base_address cl.target_address cl.tag
  | .allAttachments =>
    validate_create_link_all_attachments cl cl.base_address cl.target_address cl.tag
  | .anchorToAgent => .ok .valid

/-- The `FlatOp::RegisterDeleteLink` dispatch arm of `validate` (`lib.rs`). -/
def validate_any_delete_link (link_type : LinkType) (action : DeleteLink)
    (original_action : CreateLink) (base target : AnyLinkableHash) (tag : List Nat) :
    Except String ValidateCallbackResult :=
  match link_type with
  | .roomInfoUpdates =>
    validate_delete_link_room_info_updates action original_action base target tag
  | .allAgents =>
    validate_delete_link_all_agents action original_action base target tag
  | .allDescendentRooms =>
    validate_delete_link_all_descendent_rooms action original_action base target tag
  | .attachmentUpdates =>
    validate_delete_link_attachment_updates action original_action base target tag
  | .allAttachments =>
    validate_delete_link_all_attachments action original_action base target tag
  | .anchorToAgent => .ok .valid

/-- The `FlatOp::RegisterDelete` dispatch arm of `validate` (`lib.rs`):
route a Delete action to the rule of the original entry's kind. -/
def validate_any_delete_entry (action : Delete) (original_action : EntryCreationAction)
    (original_app_entry : EntryContent) : Except String ValidateCallbackResult :=
  match original_app_entry with
  | .roomInfo r => validate_delete_room_info action original_action r
  | .attachment a => validate_delete_attachment action original_action a
  | .descendentRoom d => validate_delete_descendent_room action original_action d

/-- Whether a callback outcome is an Invalid verdict (as opposed to Valid
or an error). -/
def isInvalid : Except String ValidateCallbackResult → Bool
  | .ok (.invalid _) => true
  | _ => false

/-- The calling agent's identity and clock, fixed for the duration of one
zome call (every action it writes is authored and timestamped with these). -/
structure AgentCtx where
  author : AgentPubKey
  now : Int

/-- The source-chain-facing state a coordinator mutation runs against: the
records reachable by a local `get`, the CreateLink actions written so far,
and a fresh-hash counter standing in for content addressing of new actions. -/
structure ZomeState where
  records : List (ActionHash × Record)
  link_writes : List CreateLink
  next_hash : Nat

/-- `create_entry`: write a new Create action carrying the entry and return
its action hash (read-your-write: the record is immediately gettable). -/
def create_entry (ctx : AgentCtx) (e : EntryContent) (st : ZomeState) :
    ActionHash × ZomeState :=
  let h := st.next_hash
  (h,
    { records := (h,
        { signed_action := { hash := h, author := ctx.author, timestamp := ctx.now },
          entry := .present e }) :: st.records,
      link_writes := st.link_writes,
      next_hash := h + 1 })

/-- `update_entry`: write a new Update action carrying the new entry. -/
def update_entry (ctx : AgentCtx) (_previous : ActionHash) (e : EntryContent)
    (st : ZomeState) : ActionHash × ZomeState :=
  let h := st.next_hash
  (h,
    { records := (h,
        { signed_action := { hash := h, author := ctx.author, timestamp := ctx.now },
          entry := .present e }) :: st.records,
      link_writes := st.link_writes,
      next_hash := h + 1 })

/-- `create_link`: write a CreateLink action and return its hash. -/
def create_link (ctx : AgentCtx) (base target : AnyLinkableHash) (lt : LinkType)
    (tag : List Nat) (st : ZomeState) : ActionHash × ZomeState :=
  let h := st.next_hash
  (h,
    { records := st.records,
      link_writes := st.link_writes ++
        [{ author := ctx.author, timestamp := ctx.now, base_address := base,
           target_address := target, link_type := lt, tag := tag }],
      next_hash := h + 1 })

/-- A local `get` against the caller's own freshly written chain. -/
def local_get (st : ZomeState) (h : ActionHash) : Option Record :=
  (st.records.find? (fun p => p.1 == h)).map (fun p => p.2)

/-- `hash_entry`: the content hash of an entry. -/
def hash_entry (e : EntryContent) : EntryHash := .content e

/-- `create_room_info` (coordinator `room_info.rs`): create the entry, read
it back, then link to the new action hash from the `all_agents` and
`all_descendent_rooms` anchor paths. -/
def create_room_info (ctx : AgentCtx) (room_info : RoomInfo) (st : ZomeState) :
    Except String (Record × ZomeState) :=
  let step1 := create_entry ctx (.roomInfo room_info) st
  let room_info_hash := step1.1
  match local_get step1.2 room_info_hash with
  | none => .error "Could not find the newly created RoomInfo"
  | some record =>
    let step2 := create_link ctx (.entry (path_entry_hash "all_agents"))
      (.action room_info_hash) .allAgents [] step1.2
    let step3 := create_link ctx (.entry (path_entry_hash "all_descendent_rooms"))
      (.action room_info_hash) .allDescendentRooms [] step2.2
    .ok (record, step3.2)

/-- Input of `update_room_info`. -/
structure UpdateRoomInfoInput where
  original_room_info_hash : ActionHash
  previous_room_info_hash : ActionHash
  updated_room_info : RoomInfo

/-- `update_room_info` (coordinator `room_info.rs`): update the entry, link
from the original action hash to the update, and read the update back. -/
def update_room_info (ctx : AgentCtx) (input : UpdateRoomInfoInput) (st : ZomeState) :
    Except String (Record × ZomeState) :=
  let step1 := update_entry ctx input.previous_room_info_hash
    (.roomInfo input.updated_room_info) st
  let updated_room_info_hash := step1.1
  let step2 := create_link ctx (.action input.original_room_info_hash)
    (.action updated_room_info_hash) .roomInfoUpdates [] step1.2
  match local_get step2.2 updated_room_info_hash with
  | none => .error "Could not find the newly updated RoomInfo"
  | some record => .ok (record, step2.2)

/-- `create_descendent_room` (coordinator `all_descendent_rooms.rs`): hash
the entry content, create the entry, then link from the
`ALL_DESCENDENT_ROOMS` anchor path to the room entry hash. -/
def create_descendent_room (ctx : AgentCtx) (input : DescendentRoom) (st : ZomeState) :
    Except String (ActionHash × ZomeState) :=
  let room_entry_hash := hash_entry (.descendentRoom input)
  let step1 := create_entry ctx (.descendentRoom input) st
  let step2 := create_link ctx (.entry (path_entry_hash ALL_DESCENDENT_ROOMS))
    (.entry room_entry_hash) .allDescendentRooms [] step1.2
  .ok (step2.1, step2.2)

/-- The CreateLink actions a mutation appended to the chain: the suffix of
the final state's link writes past those already present initially. -/
def newLinkWrites (st st' : ZomeState) : List CreateLink :=
  st'.link_writes.drop st.link_writes.length

/-- Shorthand for a CreateLink action written by `create_link` with an
empty tag. -/
def mkCL (ctx : AgentCtx) (base target : AnyLinkableHash) (lt : LinkType) : CreateLink :=
  { author := ctx.author, timestamp := ctx.now, base_address := base,
    target_address := target, link_type := lt, tag := [] }

/-- A store with no links, records or details. -/
def emptyStore : Store :=
  { links := fun _ _ _ => [], record := fun _ _ => none, details := fun _ _ => none }

/-- A sample record at action hash `n` holding a RoomInfo entry. -/
def sampleRecord (n : Nat) : Record :=
  { signed_action := { hash := n, author := 1, timestamp := 0 },
    entry := .present (.roomInfo { name := "room", icon_src := none, meta_data := none }) }

/-- A sample link to `t` at timestamp `ts`. -/
def linkTo (t : AnyLinkableHash) (ts : Int) : Link :=
  { author := 1, target := t, timestamp := ts, create_link_hash := 100, tag := [] }

/-- A store with three Updates-links (timestamps 10, 30, 20) at action hash
0 and records at hashes 0..3. -/
def store1 : Store :=
  { links := fun _ b lt =>
      if b = AnyLinkableHash.action 0 ∧ lt = LinkType.roomInfoUpdates then
        [linkTo (.action 1) 10, linkTo (.action 2) 30, linkTo (.action 3) 20]
      else [],
    record := fun _ h => if h ≤ 3 then some (sampleRecord h) else none,
    details := fun _ _ => none }

/-- A store with record details at action hash 0 and two resolving
Updates-links (targets 1 and 2). -/
def store7 : Store :=
  { links := fun _ b lt =>
      if b = AnyLinkableHash.action 0 ∧ lt = LinkType.roomInfoUpdates then
        [linkTo (.action 1) 10, linkTo (.action 2) 20]
      else [],
    record := fun _ h => if h ≤ 2 then some (sampleRecord h) else none,
    details := fun _ h => if h = 0 then some (.record { record := sampleRecord 0, deletes := [] }) else none }

/-- A sample delete action with hash `n` and timestamp `ts`. -/
def deleteAt (n : Nat) (ts : Int) : SignedActionHashed :=
  { hash := n, author := 1, timestamp := ts }

/-- A store whose record details at action hash 0 carry two delete actions
at timestamps 5 and 3 (in that order). -/
def store8 : Store :=
  { links := fun _ _ _ => [],
    record := fun _ _ => none,
    details := fun _ h =>
      if h = 0 then
        some (.record { record := sampleRecord 0, deletes := [deleteAt 10 5, deleteAt 11 3] })
      else none }

/-- A store holding a RoomInfo record at action hash 5 and nothing else. -/
def store4 : Store :=
  { links := fun _ _ _ => [],
    record := fun _ h => if h = 5 then some (sampleRecord 5) else none,
    details := fun _ _ => none }

/-- A store whose details at action hash 0 have the entry-details shape. -/
def store9e : Store :=
  { links := fun _ _ _ => [],
    record := fun _ _ => none,
    details := fun _ h => if h = 0 then some .entryDetails else none }

/-- A sample CreateLink of kind AllAgents based at the agents anchor. -/
def allAgentsCL (author : AgentPubKey) (t : AnyLinkableHash) : CreateLink :=
  { author := author, timestamp := 0, base_address := .entry (path_entry_hash ALL_AGENTS),
    target_address := t, link_type := .allAgents, tag := [] }

/-- A sample calling agent. -/
def ctx0 : AgentCtx := { author := 7, now := 0 }

/-- An initial empty zome state. -/
def st0 : ZomeState := { records := [], link_writes := [], next_hash := 0 }

/-- A sample RoomInfo payload. -/
def ri0 : RoomInfo := { name := "r", icon_src := none, meta_data := none }

/-- A sample DescendentRoom payload. -/
def dr0 : DescendentRoom :=
  { network_seed_appendix := "seed", name := "r", icon_src := none, meta_data := none }

/-- A sample update input. -/
def upd0 : UpdateRoomInfoInput :=
  { original_room_info_hash := 0, previous_room_info_hash := 0, updated_room_info := ri0 }

theorem foldl_maxStep_spec (ls : List Link) : ∀ a : Link,
    ∃ m, ls.foldl maxByTimestampStep (some a) = some m ∧ (m = a ∨ m ∈ ls) ∧
      a.timestamp ≤ m.timestamp ∧ ∀ x ∈ ls, x.timestamp ≤ m.timestamp := by
  induction ls with
  | nil =>
    intro a
    exact ⟨a, rfl, Or.inl rfl, le_refl _, by simp⟩
  | cons l ls ih =>
    intro a
    rw [List.foldl_cons]
    by_cases h : l.timestamp < a.timestamp
    · have hstep : maxByTimestampStep (some a) l = some a := by
        simp [maxByTimestampStep, h]
      rw [hstep]
      obtain ⟨m, hm, hmem, hle, hall⟩ := ih a
      refine ⟨m, hm, ?_, hle, ?_⟩
      · rcases hmem with rfl | hm'
        · exact Or.inl rfl
        · exact Or.inr (List.mem_cons_of_mem _ hm')
      · intro x hx
        rcases List.mem_cons.mp hx with rfl | hx'
        · exact le_trans (le_of_lt h) hle
        · exact hall x hx'
    · have hstep : maxByTimestampStep (some a) l = some l := by
        simp [maxByTimestampStep, h]
      rw [hstep]
      obtain ⟨m, hm, hmem, hle, hall⟩ := ih l
      refine ⟨m, hm, ?_, le_trans (le_of_not_lt h) hle, ?_⟩
      · rcases hmem with rfl | hm'
        · exact Or.inr (List.mem_cons_self _ _)
        · exact Or.inr (List.mem_cons_of_mem _ hm')
      · intro x hx
        rcases List.mem_cons.mp hx with rfl | hx'
        · exact hle
        · exact hall x hx'

theorem maxByTimestamp_spec {ls : List Link} (h : ls ≠ []) :
    ∃ m, maxByTimestamp ls = some m ∧ m ∈ ls ∧ ∀ x ∈ ls, x.timestamp ≤ m.timestamp := by
  cases ls with
  | nil => exact absurd rfl h
  | cons l ls =>
    obtain ⟨m, hm, hmem, hle, hall⟩ := foldl_maxStep_spec ls l
    refine ⟨m, ?_, ?_, ?_⟩
    · show (l :: ls).foldl maxByTimestampStep none = some m
      rw [List.foldl_cons]
      exact hm
    · rcases hmem with rfl | hm'
      · exact List.mem_cons_self _ _
      · exact List.mem_cons_of_mem _ hm'
    · intro x hx
      rcases List.mem_cons.mp hx with rfl | hx'
      · exact hle
      · exact hall x hx'

theorem collectTargets_spec (g : ActionHash → Option Record) (ls : List Link) :
    (∀ l ∈ ls, (intoActionHash l.target).isSome = true) →
    ∃ hs, collectTargets ls = .ok hs ∧ hs.length = ls.length ∧
      (hs.map g).filterMap id = ls.filterMap (fun l => (intoActionHash l.target).bind g) := by
  induction ls with
  | nil => exact fun _ => ⟨[], rfl, rfl, rfl⟩
  | cons l ls ih =>
    intro hall
    have hl : (intoActionHash l.target).isSome = true := hall l (List.mem_cons_self _ _)
    obtain ⟨h, hh⟩ := Option.isSome_iff_exists.mp hl
    obtain ⟨hs, hhs, hlen, heq⟩ := ih (fun x hx => hall x (List.mem_cons_of_mem _ hx))
    refine ⟨h :: hs, ?_, ?_, ?_⟩
    · simp [collectTargets, hh, hhs]
    · simp [hlen]
    · cases hgh : g h <;>
      simp [List.filterMap_cons, hh, hgh, heq, Option.bind]

theorem length_filterMap_of_all_isSome {α β : Type} (f : α → Option β) (ls : List α) :
    (∀ x ∈ ls, (f x).isSome = true) → (ls.filterMap f).length = ls.length := by
  induction ls with
  | nil => exact fun _ => rfl
  | cons a ls ih =>
    intro hall
    obtain ⟨b, hb⟩ := Option.isSome_iff_exists.mp (hall a (List.mem_cons_self _ _))
    simp [List.filterMap_cons, hb, ih (fun x hx => hall x (List.mem_cons_of_mem _ hx))]

theorem sortByTimestamp_head {ds : List SignedActionHashed} (h : ds ≠ []) :
    ∃ d, (sortByTimestamp ds).head? = some d ∧ d ∈ ds ∧
      ∀ x ∈ ds, d.timestamp ≤ x.timestamp := by
  have hperm := List.perm_insertionSort tsLE ds
  have hsorted := List.sorted_insertionSort tsLE ds
  unfold sortByTimestamp
  cases hs : List.insertionSort tsLE ds with
  | nil =>
    rw [hs] at hperm
    exact absurd (List.perm_nil.mp hperm.symm) h
  | cons d rest =>
    rw [hs] at hperm hsorted
    refine ⟨d, rfl, hperm.subset (List.mem_cons_self _ _), ?_⟩
    intro x hx
    rcases List.mem_cons.mp (hperm.mem_iff.mpr hx) with rfl | hx'
    · exact le_refl _
    · exact List.rel_of_sorted_cons hsorted x hx'

/-- C1: for every original action hash, `get_latest_room_info` and
`get_latest_attachment` return the record at the original itself when zero
Updates-links with that base exist, return `.ok none` (not an error) when
additionally the original does not resolve, and when one or more
Updates-links exist they resolve the target of a link of maximum timestamp
to a record. -/
theorem claim_c1 (store : Store) (orig : ActionHash) (inp : ZomeFnInput ActionHash) :
    ((store.links .network (.action orig) .roomInfoUpdates = [] →
        get_latest_room_info store orig = .ok (store.record .network orig)) ∧
      (store.links .network (.action orig) .roomInfoUpdates = [] →
          store.record .network orig = none →
        get_latest_room_info store orig = .ok none) ∧
      (store.links .network (.action orig) .roomInfoUpdates ≠ [] →
        ∃ l ∈ store.links .network (.action orig) .roomInfoUpdates,
          (∀ x ∈ store.links .network (.action orig) .roomInfoUpdates,
            x.timestamp ≤ l.timestamp) ∧
          get_latest_room_info store orig = resolveLinkTarget store .network l)) ∧
    ((store.links inp.strategy (.action inp.input) .attachmentUpdates = [] →
        get_latest_attachment store inp = .ok (store.record inp.strategy inp.input)) ∧
      (store.links inp.strategy (.action inp.input) .attachmentUpdates = [] →
          store.record inp.strategy inp.input = none →
        get_latest_attachment store inp = .ok none) ∧
      (store.links inp.strategy (.action inp.input) .attachmentUpdates ≠ [] →
        ∃ l ∈ store.links inp.strategy (.action inp.input) .attachmentUpdates,
          (∀ x ∈ store.links inp.strategy (.action inp.input) .attachmentUpdates,
            x.timestamp ≤ l.timestamp) ∧
          get_latest_attachment store inp = resolveLinkTarget store inp.strategy l)) := by
  constructor
  · refine ⟨?_, ?_, ?_⟩
    · intro h
      simp [get_latest_room_info, h, maxByTimestamp]
    · intro h h0
      simp [get_latest_room_info, h, h0, maxByTimestamp]
    · intro h
      obtain ⟨m, hm, hmem, hall⟩ := maxByTimestamp_spec h
      refine ⟨m, hmem, hall, ?_⟩
      simp only [get_latest_room_info, hm, resolveLinkTarget]
  · refine ⟨?_, ?_, ?_⟩
    · intro h
      simp [get_latest_attachment, h, maxByTimestamp]
    · intro h h0
      simp [get_latest_attachment, h, h0, maxByTimestamp]
    · intro h
      obtain ⟨m, hm, hmem, hall⟩ := maxByTimestamp_spec h
      refine ⟨m, hmem, hall, ?_⟩
      simp only [get_latest_attachment, hm, resolveLinkTarget]

/-- Witness for C1: at a store with Updates-links of timestamps
[10, 30, 20] the room-info resolver picks a maximal-timestamp link, and at a
base with zero links the attachment resolver returns the original record. -/
theorem claim_c1_witness :
    (∃ l ∈ store1.links .network (.action 0) .roomInfoUpdates,
      (∀ x ∈ store1.links .network (.action 0) .roomInfoUpdates,
        x.timestamp ≤ l.timestamp) ∧
      get_latest_room_info store1 0 = resolveLinkTarget store1 .network l) ∧
    get_latest_attachment store1 ⟨0, .network⟩ = .ok (some (sampleRecord 0)) := by
  constructor
  · exact (claim_c1 store1 0 ⟨0, .network⟩).1.2.2 (by decide)
  · have h := (claim_c1 store1 0 ⟨0, .network⟩).2.1 (by decide)
    rw [h]
    rfl

theorem toAgentPubKey_eq_some {h : AnyLinkableHash} {pk : AgentPubKey} :
    toAgentPubKey h = some pk ↔ h = .agent pk := by
  cases h <;> simp [toAgentPubKey]

/-- C2: for every CreateLink operation of kind AllAgents, validation is
Invalid whenever the link's target address does not parse as an agent
public key or differs from the action's author, and Valid when the target
parses as an agent public key equal to the author. -/
theorem claim_c2 (store : Store) (cl : CreateLink) (hk : cl.link_type = .allAgents) :
    (toAgentPubKey cl.target_address = none →
      ∃ r, validate_any_create_link store cl = .ok (.invalid r)) ∧
    (∀ pk, toAgentPubKey cl.target_address = some pk → pk ≠ cl.author →
      ∃ r, validate_any_create_link store cl = .ok (.invalid r)) ∧
    (toAgentPubKey cl.target_address = some cl.author →
      validate_any_create_link store cl = .ok .valid) := by
  refine ⟨?_, ?_, ?_⟩
  · intro h
    exact ⟨"AllAgents link target is not an agent public key.",
      by simp [validate_any_create_link, hk, validate_create_link_all_agents, h]⟩
  · intro pk hpk hne
    exact ⟨"Links from the ALL_AGENTS anchor can only be created for oneself.", by
      simp [validate_any_create_link, hk, validate_create_link_all_agents, hpk, Ne.symm hne]⟩
  · intro h
    simp [validate_any_create_link, hk, validate_create_link_all_agents, h]

/-- Witness for C2: an action-hash target is rejected, a foreign agent
target is rejected, and a self-registration is accepted. -/
theorem claim_c2_witness :
    (∃ r, validate_any_create_link emptyStore (allAgentsCL 7 (.action 3)) = .ok (.invalid r)) ∧
    (∃ r, validate_any_create_link emptyStore (allAgentsCL 7 (.agent 8)) = .ok (.invalid r)) ∧
    validate_any_create_link emptyStore (allAgentsCL 7 (.agent 7)) = .ok .valid := by
  refine ⟨?_, ?_, ?_⟩
  · exact (claim_c2 emptyStore _ rfl).1 rfl
  · exact (claim_c2 emptyStore _ rfl).2.1 8 rfl (by decide)
  · exact (claim_c2 emptyStore _ rfl).2.2 rfl

/-- C5: for every DeleteLink operation whose original link kind is
AllAgents or RoomInfoUpdates, validation is Invalid unconditionally,
regardless of author, base, target, or tag. -/
theorem claim_c5 (action : DeleteLink) (original_action : CreateLink)
    (base target : AnyLinkableHash) (tag : List Nat) :
    validate_any_delete_link .allAgents action original_action base target tag =
      .ok (.invalid "AllAgent links cannot be deleted.") ∧
    validate_any_delete_link .roomInfoUpdates action original_action base target tag =
      .ok (.invalid "RoomInfoUpdates links cannot be deleted") :=
  ⟨rfl, rfl⟩

/-- C6: for every Delete operation whose original entry kind is RoomInfo or
DescendentRoom, validation is Invalid unconditionally, regardless of the
delete action's author or timestamp. -/
theorem claim_c6 (action : Delete) (original_action : EntryCreationAction)
    (room_info : RoomInfo) (descendent_room : DescendentRoom) :
    validate_any_delete_entry action original_action (.roomInfo room_info) =
      .ok (.invalid "Room Infos cannot be deleted") ∧
    validate_any_delete_entry action original_action (.descendentRoom descendent_room) =
      .ok (.invalid "Room Infos cannot be deleted") :=
  ⟨rfl, rfl⟩

/-- C10: both `get_all_agents` implementations never fail and return
exactly those link targets at the agents anchor that parse as agent public
keys, silently discarding each target that does not parse. -/
theorem claim_c10 (store : Store) :
    (∃ agents, get_all_agents store = .ok agents ∧
      ∀ pk, pk ∈ agents ↔
        ∃ l ∈ store.links .network (.entry (path_entry_hash ALL_AGENTS)) .allAgents,
          l.target = .agent pk) ∧
    (∃ agents, Unzoom.get_all_agents store = .ok agents ∧
      ∀ pk, pk ∈ agents ↔
        ∃ l ∈ store.links .network (.entry (Unzoom.anchor ALL_AGENTS ALL_AGENTS)) .anchorToAgent,
          l.target = .agent pk) := by
  constructor
  · refine ⟨_, rfl, ?_⟩
    intro pk
    simp [List.mem_filterMap, toAgentPubKey_eq_some]
  · refine ⟨_, rfl, ?_⟩
    intro pk
    simp [List.mem_filterMap, List.mem_map, toAgentPubKey_eq_some]

/-- C7: `get_all_revisions_for_room_info` and
`get_all_revisions_for_attachment` return the empty sequence when the
original does not resolve; otherwise (when every Updates-link target is an
action hash) they return the original record followed by the records
fetched at the link targets, and when every target resolves that is one
record per Updates-link. -/
theorem claim_c7 (store : Store) (orig : ActionHash) (inp : ZomeFnInput ActionHash) :
    ((store.details .network orig = none →
        get_all_revisions_for_room_info store orig = .ok []) ∧
      (∀ d, store.details .network orig = some (.record d) →
        (∀ l ∈ store.links .network (.action orig) .roomInfoUpdates,
          (intoActionHash l.target).isSome = true) →
        get_all_revisions_for_room_info store orig =
          .ok (d.record :: (store.links .network (.action orig) .roomInfoUpdates).filterMap
            (fun l => (intoActionHash l.target).bind (store.record .network)))) ∧
      (∀ d, store.details .network orig = some (.record d) →
        (∀ l ∈ store.links .network (.action orig) .roomInfoUpdates,
          ((intoActionHash l.target).bind (store.record .network)).isSome = true) →
        ∃ tail, get_all_revisions_for_room_info store orig = .ok (d.record :: tail) ∧
          tail.length = (store.links .network (.action orig) .roomInfoUpdates).length)) ∧
    ((store.details inp.strategy inp.input = none →
        get_all_revisions_for_attachment store inp = .ok []) ∧
      (∀ d, store.details inp.strategy inp.input = some (.record d) →
        (∀ l ∈ store.links inp.strategy (.action inp.input) .attachmentUpdates,
          (intoActionHash l.target).isSome = true) →
        get_all_revisions_for_attachment store inp =
          .ok (d.record ::
            (store.links inp.strategy (.action inp.input) .attachmentUpdates).filterMap
              (fun l => (intoActionHash l.target).bind (store.record inp.strategy)))) ∧
      (∀ d, store.details inp.strategy inp.input = some (.record d) →
        (∀ l ∈ store.links inp.strategy (.action inp.input) .attachmentUpdates,
          ((intoActionHash l.target).bind (store.record inp.strategy)).isSome = true) →
        ∃ tail, get_all_revisions_for_attachment store inp = .ok (d.record :: tail) ∧
          tail.length =
            (store.links inp.strategy (.action inp.input) .attachmentUpdates).length)) := by
  have hsome : ∀ (g : ActionHash → Option Record) (l : Link),
      ((intoActionHash l.target).bind g).isSome = true →
      (intoActionHash l.target).isSome = true := by
    intro g l h
    cases hiah : intoActionHash l.target with
    | none => rw [hiah] at h; simp [Option.bind] at h
    | some x => rfl
  constructor
  · refine ⟨?_, ?_, ?_⟩
    · intro h
      simp [get_all_revisions_for_room_info, get_original_room_info, h]
    · intro d hd hall
      obtain ⟨hs, hhs, hlen, heq⟩ := collectTargets_spec (store.record .network) _ hall
      simp [get_all_revisions_for_room_info, get_original_room_info, hd, hhs, heq]
    · intro d hd hall
      obtain ⟨hs, hhs, hlen, heq⟩ := collectTargets_spec (store.record .network) _
        (fun l hl => hsome _ l (hall l hl))
      refine ⟨(store.links .network (.action orig) .roomInfoUpdates).filterMap
          (fun l => (intoActionHash l.target).bind (store.record .network)), ?_,
          length_filterMap_of_all_isSome _ _ hall⟩
      simp at heq
      simp [get_all_revisions_for_room_info, get_original_room_info, hd, hhs, heq]
  · refine ⟨?_, ?_, ?_⟩
    · intro h
      simp [get_all_revisions_for_attachment, get_original_attachment, h]
    · intro d hd hall
      obtain ⟨hs, hhs, hlen, heq⟩ := collectTargets_spec (store.record inp.strategy) _ hall
      simp [get_all_revisions_for_attachment, get_original_attachment, hd, hhs, heq]
    · intro d hd hall
      obtain ⟨hs, hhs, hlen, heq⟩ := collectTargets_spec (store.record inp.strategy) _
        (fun l hl => hsome _ l (hall l hl))
      refine ⟨(store.links inp.strategy (.action inp.input) .attachmentUpdates).filterMap
          (fun l => (intoActionHash l.target).bind (store.record inp.strategy)), ?_,
          length_filterMap_of_all_isSome _ _ hall⟩
      simp at heq
      simp [get_all_revisions_for_attachment, get_original_attachment, hd, hhs, heq]

/-- Witness for C7: at a store with a resolving original and two resolving
Updates-links the room-info history is the original plus one record per
link, and at a base with no links the attachment history is the original
alone. -/
theorem claim_c7_witness :
    (∃ tail, get_all_revisions_for_room_info store7 0 = .ok (sampleRecord 0 :: tail) ∧
      tail.length = (store7.links .network (.action 0) .roomInfoUpdates).length) ∧
    get_all_revisions_for_attachment store7 ⟨0, .network⟩ = .ok [sampleRecord 0] := by
  constructor
  · exact (claim_c7 store7 0 ⟨0, .network⟩).1.2.2
      { record := sampleRecord 0, deletes := [] } rfl (by decide)
  · have h := (claim_c7 store7 0 ⟨0, .network⟩).2.2.1
      { record := sampleRecord 0, deletes := [] } rfl (by decide)
    rw [h]
    rfl

/-- C8: `get_oldest_delete_for_attachment` returns `.ok none` when
`get_all_deletes_for_attachment` returns none (the original does not
resolve), and otherwise returns a recorded delete action of minimum
timestamp (the head of the deletes sorted ascending by timestamp). -/
theorem claim_c8 (store : Store) (inp : ZomeFnInput ActionHash) :
    (store.details inp.strategy inp.input = none →
      get_all_deletes_for_attachment store inp = .ok none ∧
      get_oldest_delete_for_attachment store inp = .ok none) ∧
    (∀ rd, store.details inp.strategy inp.input = some (.record rd) →
      (rd.deletes = [] → get_oldest_delete_for_attachment store inp = .ok none) ∧
      (rd.deletes ≠ [] →
        ∃ del, get_oldest_delete_for_attachment store inp = .ok (some del) ∧
          del ∈ rd.deletes ∧ ∀ x ∈ rd.deletes, del.timestamp ≤ x.timestamp)) := by
  constructor
  · intro h
    constructor
    · simp [get_all_deletes_for_attachment, h]
    · simp [get_oldest_delete_for_attachment, get_all_deletes_for_attachment, h]
  · intro rd hrd
    constructor
    · intro hnil
      simp [get_oldest_delete_for_attachment, get_all_deletes_for_attachment, hrd, hnil,
        sortByTimestamp]
    · intro hne
      obtain ⟨d, hd, hmem, hall⟩ := sortByTimestamp_head hne
      refine ⟨d, ?_, hmem, hall⟩
      simp [get_oldest_delete_for_attachment, get_all_deletes_for_attachment, hrd, hd]

/-- Witness for C8: with deletes recorded at timestamps 5 and 3 against the
same original, the oldest delete is the one at timestamp 3. -/
theorem claim_c8_witness :
    ∃ del, get_oldest_delete_for_attachment store8 ⟨0, .network⟩ = .ok (some del) ∧
      del ∈ [deleteAt 10 5, deleteAt 11 3] ∧
      (∀ x ∈ [deleteAt 10 5, deleteAt 11 3], del.timestamp ≤ x.timestamp) ∧
      del.timestamp = 3 := by
  obtain ⟨d, hres, hmem, hall⟩ := ((claim_c8 store8 ⟨0, .network⟩).2
    { record := sampleRecord 0, deletes := [deleteAt 10 5, deleteAt 11 3] } rfl).2 (by decide)
  refine ⟨d, hres, hmem, hall, ?_⟩
  have h3 := hall (deleteAt 11 3) (by decide)
  rcases List.mem_cons.mp hmem with rfl | h1
  · exact absurd h3 (by decide)
  · rcases List.mem_cons.mp h1 with rfl | h2
    · rfl
    · exact absurd h2 (by simp)

/-- C9 (amended): `get_original_room_info` / `get_original_attachment`
return `.ok none` when the store has no details, return the record when the
details shape is the record shape, and fail with the malformed-details
error exactly when the shape is not the record shape, i.e. when it is the
entry shape. -/
theorem claim_c9 (store : Store) (orig : ActionHash) (inp : ZomeFnInput ActionHash) :
    (store.details .network orig = none → get_original_room_info store orig = .ok none) ∧
    (∀ d, store.details .network orig = some (.record d) →
      get_original_room_info store orig = .ok (some d.record)) ∧
    (store.details .network orig = some .entryDetails →
      get_original_room_info store orig = .error "Malformed get details response") ∧
    (store.details inp.strategy inp.input = none →
      get_original_attachment store inp = .ok none) ∧
    (∀ d, store.details inp.strategy inp.input = some (.record d) →
      get_original_attachment store inp = .ok (some d.record)) ∧
    (store.details inp.strategy inp.input = some .entryDetails →
      get_original_attachment store inp = .error "Malformed get details response") := by
  refine ⟨?_, ?_, ?_, ?_, ?_, ?_⟩
  · intro h; simp [get_original_room_info, h]
  · intro d h; simp [get_original_room_info, h]
  · intro h; simp [get_original_room_info, h]
  · intro h; simp [get_original_attachment, h]
  · intro d h; simp [get_original_attachment, h]
  · intro h; simp [get_original_attachment, h]

/-- Counterexample to C9 as stated: the entry-details shape IS one of the
shapes "entry"/"record", yet `get_original_room_info` fails with the
malformed-details error on it, so the error does not occur exactly when the
shape is neither "entry" nor "record". -/
theorem claim_c9_counterexample :
    store9e.details .network 0 = some .entryDetails ∧
    get_original_room_info store9e 0 = .error "Malformed get details response" :=
  ⟨rfl, rfl⟩

/-- Witness for C9 (amended) at concrete stores exercising the three
details shapes. -/
theorem claim_c9_witness :
    get_original_room_info emptyStore 0 = .ok none ∧
    get_original_room_info store7 0 = .ok (some (sampleRecord 0)) ∧
    get_original_attachment store9e ⟨0, .network⟩ = .error "Malformed get details response" := by
  refine ⟨?_, ?_, ?_⟩
  · exact (claim_c9 emptyStore 0 ⟨0, .network⟩).1 rfl
  · exact (claim_c9 store7 0 ⟨0, .network⟩).2.1 { record := sampleRecord 0, deletes := [] } rfl
  · exact (claim_c9 store9e 0 ⟨0, .network⟩).2.2.2.2.2 rfl

/-- C4 (amended): `validate_create_link_room_info_updates` is Valid exactly
when the base is the entry hash of the ROOM_INFO anchor path and the target
is an action hash resolving to a record whose entry is a RoomInfo; a base
that is not that entry hash yields Invalid, while a non-action-hash target,
an action-hash target that does not resolve, and a target resolving to a
non-RoomInfo entry all yield errors. -/
theorem claim_c4 (store : Store) (action : CreateLink) (base target : AnyLinkableHash)
    (tag : List Nat) :
    (validate_create_link_room_info_updates store action base target tag = .ok .valid ↔
      (base = .entry (path_entry_hash ROOM_INFO) ∧
        ∃ h r ri, target = .action h ∧ store.record .network h = some r ∧
          r.entry = .present (.roomInfo ri))) ∧
    (toEntryHash base = none →
      ∃ s, validate_create_link_room_info_updates store action base target tag =
        .ok (.invalid s)) ∧
    (∀ eh, base = .entry eh → eh ≠ path_entry_hash ROOM_INFO →
      ∃ s, validate_create_link_room_info_updates store action base target tag =
        .ok (.invalid s)) ∧
    (base = .entry (path_entry_hash ROOM_INFO) → intoActionHash target = none →
      validate_create_link_room_info_updates store action base target tag =
        .error "Link to RoomInfo entry is not an action hash") ∧
    (∀ h, base = .entry (path_entry_hash ROOM_INFO) → target = .action h →
      store.record .network h = none →
      validate_create_link_room_info_updates store action base target tag =
        .error "Record not found") ∧
    (∀ h r, base = .entry (path_entry_hash ROOM_INFO) → target = .action h →
      store.record .network h = some r → (∀ ri, r.entry ≠ .present (.roomInfo ri)) →
      ∃ e, validate_create_link_room_info_updates store action base target tag =
        .error e) := by
  refine ⟨?_, ?_, ?_, ?_, ?_, ?_⟩
  · cases base with
    | agent k => simp [validate_create_link_room_info_updates, toEntryHash]
    | action h => simp [validate_create_link_room_info_updates, toEntryHash]
    | ext n => simp [validate_create_link_room_info_updates, toEntryHash]
    | entry eh =>
      by_cases heq : eh = path_entry_hash ROOM_INFO
      · subst heq
        cases target with
        | agent k => simp [validate_create_link_room_info_updates, toEntryHash, intoActionHash]
        | entry eh2 => simp [validate_create_link_room_info_updates, toEntryHash, intoActionHash]
        | ext n => simp [validate_create_link_room_info_updates, toEntryHash, intoActionHash]
        | action h =>
          cases hrec : store.record .network h with
          | none =>
            simp [validate_create_link_room_info_updates, toEntryHash, intoActionHash,
              must_get_valid_record, hrec]
          | some r =>
            cases hentry : r.entry with
            | present e =>
              cases e with
              | roomInfo ri =>
                simp [validate_create_link_room_info_updates, toEntryHash, intoActionHash,
                  must_get_valid_record, hrec, toAppOptionRoomInfo, hentry]
              | attachment a =>
                simp [validate_create_link_room_info_updates, toEntryHash, intoActionHash,
                  must_get_valid_record, hrec, toAppOptionRoomInfo, hentry]
              | descendentRoom dr =>
                simp [validate_create_link_room_info_updates, toEntryHash, intoActionHash,
                  must_get_valid_record, hrec, toAppOptionRoomInfo, hentry]
            | hidden =>
              simp [validate_create_link_room_info_updates, toEntryHash, intoActionHash,
                must_get_valid_record, hrec, toAppOptionRoomInfo, hentry]
            | na =>
              simp [validate_create_link_room_info_updates, toEntryHash, intoActionHash,
                must_get_valid_record, hrec, toAppOptionRoomInfo, hentry]
            | notStored =>
              simp [validate_create_link_room_info_updates, toEntryHash, intoActionHash,
                must_get_valid_record, hrec, toAppOptionRoomInfo, hentry]
      · simp [validate_create_link_room_info_updates, toEntryHash, heq]
  · intro hb
    cases base with
    | agent k =>
      exact ⟨"Base address of a RoomInfoUpdates link must be an entry hash.", rfl⟩
    | action h =>
      exact ⟨"Base address of a RoomInfoUpdates link must be an entry hash.", rfl⟩
    | ext n =>
      exact ⟨"Base address of a RoomInfoUpdates link must be an entry hash.", rfl⟩
    | entry eh => exact absurd hb (by simp [toEntryHash])
  · intro eh hbase hne
    subst hbase
    exact ⟨"RoomInfoUpdates links must have the RoomInfo anchor as their base.",
      by simp [validate_create_link_room_info_updates, toEntryHash, hne]⟩
  · intro hbase htarget
    subst hbase
    cases target with
    | agent k => simp [validate_create_link_room_info_updates, toEntryHash, intoActionHash]
    | entry eh2 => simp [validate_create_link_room_info_updates, toEntryHash, intoActionHash]
    | ext n => simp [validate_create_link_room_info_updates, toEntryHash, intoActionHash]
    | action h => exact absurd htarget (by simp [intoActionHash])
  · intro h hbase htarget hrec
    subst hbase
    subst htarget
    simp [validate_create_link_room_info_updates, toEntryHash, intoActionHash,
      must_get_valid_record, hrec]
  · intro h r hbase htarget hrec hne
    subst hbase
    subst htarget
    cases hentry : r.entry with
    | present e =>
      cases e with
      | roomInfo ri => exact absurd hentry (hne ri)
      | attachment a =>
        exact ⟨"SerializedBytesError",
          by simp [validate_create_link_room_info_updates, toEntryHash, intoActionHash,
            must_get_valid_record, hrec, toAppOptionRoomInfo, hentry]⟩
      | descendentRoom dr =>
        exact ⟨"SerializedBytesError",
          by simp [validate_create_link_room_info_updates, toEntryHash, intoActionHash,
            must_get_valid_record, hrec, toAppOptionRoomInfo, hentry]⟩
    | hidden =>
      exact ⟨"Linked action must point to a RoomInfo entry",
        by simp [validate_create_link_room_info_updates, toEntryHash, intoActionHash,
          must_get_valid_record, hrec, toAppOptionRoomInfo, hentry]⟩
    | na =>
      exact ⟨"Linked action must point to a RoomInfo entry",
        by simp [validate_create_link_room_info_updates, toEntryHash, intoActionHash,
          must_get_valid_record, hrec, toAppOptionRoomInfo, hentry]⟩
    | notStored =>
      exact ⟨"Linked action must point to a RoomInfo entry",
        by simp [validate_create_link_room_info_updates, toEntryHash, intoActionHash,
          must_get_valid_record, hrec, toAppOptionRoomInfo, hentry]⟩

/-- Counterexample to C4 as stated: with the base equal to the ROOM_INFO
anchor entry hash and the target a genuine action hash that does not
resolve, the validator returns an error rather than the Invalid verdict the
claim prescribes for every non-Valid case with an action-hash target. -/
theorem claim_c4_counterexample :
    toEntryHash (.entry (path_entry_hash ROOM_INFO)) = some (path_entry_hash ROOM_INFO) ∧
    intoActionHash (.action 0) = some 0 ∧
    validate_create_link_room_info_updates emptyStore (allAgentsCL 7 (.agent 7))
      (.entry (path_entry_hash ROOM_INFO)) (.action 0) [] = .error "Record not found" ∧
    isInvalid (validate_create_link_room_info_updates emptyStore (allAgentsCL 7 (.agent 7))
      (.entry (path_entry_hash ROOM_INFO)) (.action 0) []) = false :=
  ⟨rfl, rfl, rfl, rfl⟩

/-- Witness for C4 (amended): a resolving RoomInfo target under the anchor
base validates, and an action-hash base is rejected as Invalid. -/
theorem claim_c4_witness :
    validate_create_link_room_info_updates store4 (allAgentsCL 7 (.agent 7))
      (.entry (path_entry_hash ROOM_INFO)) (.action 5) [] = .ok .valid ∧
    ∃ s, validate_create_link_room_info_updates store4 (allAgentsCL 7 (.agent 7))
      (.action 0) (.action 5) [] = .ok (.invalid s) := by
  constructor
  · exact (claim_c4 store4 (allAgentsCL 7 (.agent 7)) (.entry (path_entry_hash ROOM_INFO))
      (.action 5) []).1.mpr
      ⟨rfl, 5, sampleRecord 5, { name := "room", icon_src := none, meta_data := none },
        rfl, rfl, rfl⟩
  · exact (claim_c4 store4 (allAgentsCL 7 (.agent 7)) (.action 0) (.action 5) []).2.1 rfl

theorem local_get_fresh (ctx : AgentCtx) (e : EntryContent) (st : ZomeState) :
    local_get (create_entry ctx e st).2 st.next_hash =
      some { signed_action := { hash := st.next_hash, author := ctx.author, timestamp := ctx.now },
             entry := .present e } := by
  simp [create_entry, local_get]

/-- C3: the links written by `create_room_info`, `create_descendent_room`
and `update_room_info` are all rejected by the same zome's CreateLink
validation: the first two write links whose targets are the new action hash
respectively the room entry hash where the validators demand the author's
agent public key, and the third writes a RoomInfoUpdates link based at the
original action hash where the validator demands the ROOM_INFO anchor entry
hash. -/
theorem claim_c3 (store : Store) (ctx : AgentCtx) (ri : RoomInfo) (dr : DescendentRoom)
    (upd : UpdateRoomInfoInput) (st : ZomeState) :
    (∀ r st', create_room_info ctx ri st = .ok (r, st') →
      (∃ h, newLinkWrites st st' =
        [mkCL ctx (.entry (path_entry_hash "all_agents")) (.action h) .allAgents,
         mkCL ctx (.entry (path_entry_hash "all_descendent_rooms")) (.action h)
           .allDescendentRooms]) ∧
      ∀ cl ∈ newLinkWrites st st', isInvalid (validate_any_create_link store cl) = true) ∧
    (∀ ah st', create_descendent_room ctx dr st = .ok (ah, st') →
      newLinkWrites st st' =
        [mkCL ctx (.entry (path_entry_hash ALL_DESCENDENT_ROOMS))
          (.entry (hash_entry (.descendentRoom dr))) .allDescendentRooms] ∧
      ∀ cl ∈ newLinkWrites st st', isInvalid (validate_any_create_link store cl) = true) ∧
    (∀ r st', update_room_info ctx upd st = .ok (r, st') →
      (∃ h, newLinkWrites st st' =
        [mkCL ctx (.action upd.original_room_info_hash) (.action h) .roomInfoUpdates]) ∧
      ∀ cl ∈ newLinkWrites st st', isInvalid (validate_any_create_link store cl) = true) := by
  refine ⟨?_, ?_, ?_⟩
  · intro r st' hrun
    simp only [create_room_info, create_entry, local_get, create_link, List.find?,
      beq_self_eq_true, Option.map_some', Except.ok.injEq, Prod.mk.injEq] at hrun
    obtain ⟨hr, hst⟩ := hrun
    subst hst
    constructor
    · refine ⟨st.next_hash, ?_⟩
      simp [newLinkWrites, mkCL, List.drop_left]
    · intro cl hcl
      simp [newLinkWrites, List.drop_left] at hcl
      rcases hcl with rfl | rfl
      · simp [validate_any_create_link, validate_create_link_all_agents, toAgentPubKey,
          isInvalid]
      · simp [validate_any_create_link, validate_create_link_all_descendent_rooms,
          toAgentPubKey, isInvalid]
  · intro ah st' hrun
    simp only [create_descendent_room, create_entry, create_link, Except.ok.injEq,
      Prod.mk.injEq] at hrun
    obtain ⟨hah, hst⟩ := hrun
    subst hst
    constructor
    · simp [newLinkWrites, mkCL, List.drop_left]
    · intro cl hcl
      simp [newLinkWrites, List.drop_left] at hcl
      subst hcl
      simp [validate_any_create_link, validate_create_link_all_descendent_rooms,
        toAgentPubKey, isInvalid]
  · intro r st' hrun
    simp only [update_room_info, update_entry, local_get, create_link, List.find?,
      beq_self_eq_true, Option.map_some', Except.ok.injEq, Prod.mk.injEq] at hrun
    obtain ⟨hr, hst⟩ := hrun
    subst hst
    constructor
    · refine ⟨st.next_hash, ?_⟩
      simp [newLinkWrites, mkCL, List.drop_left]
    · intro cl hcl
      simp [newLinkWrites, List.drop_left] at hcl
      subst hcl
      simp [validate_any_create_link, validate_create_link_room_info_updates, toEntryHash,
        isInvalid]

/-- Witness for C3: a concrete run of each mutation from an empty state;
each link it writes is rejected by the CreateLink validation dispatch. -/
theorem claim_c3_witness :
    isInvalid (validate_any_create_link emptyStore
      (mkCL ctx0 (.entry (path_entry_hash "all_agents")) (.action 0) .allAgents)) = true ∧
    isInvalid (validate_any_create_link emptyStore
      (mkCL ctx0 (.entry (path_entry_hash ALL_DESCENDENT_ROOMS))
        (.entry (hash_entry (.descendentRoom dr0))) .allDescendentRooms)) = true ∧
    isInvalid (validate_any_create_link emptyStore
      (mkCL ctx0 (.action 0) (.action 0) .roomInfoUpdates)) = true := by
  refine ⟨?_, ?_, ?_⟩
  · exact ((claim_c3 emptyStore ctx0 ri0 dr0 upd0 st0).1 _ _ rfl).2 _ (by decide)
  · exact ((claim_c3 emptyStore ctx0 ri0 dr0 upd0 st0).2.1 _ _ rfl).2 _ (by decide)
  · exact ((claim_c3 emptyStore ctx0 ri0 dr0 upd0 st0).2.2 _ _ rfl).2 _ (by decide)

end Presence

